import Mathlib

/-
Shallow embedding of the covered-calls bot backend (src/app.py) for
verification of its natural-language specification.

The program is a Flask app over two market-data providers (robin_stocks
"robinhood" and yfinance).  We embed the pure data flow of its endpoint
handlers: Python scalar values that can be None, a number, or a float NaN
are modelled by `PyVal`; Python floats by `PyFloat` (a rational or NaN);
provider calls that can raise are modelled as `Except Unit` results passed
in as arguments; dates are modelled as integer day numbers, and the epoch
timestamp of a date's midnight as `86400 * day`.
-/

namespace CoveredCalls

/-- A Python value as returned in provider replies: `None`, a (real)
number, or a float NaN.  Numeric strings from the broker API are modelled
by their numeric value. -/
inductive PyVal where
  | none
  | num (q : ℚ)
  | nan
deriving DecidableEq, Repr

/-- Python truthiness of a `PyVal`: `None` and `0` are falsy; NaN is
truthy. -/
def PyVal.truthy : PyVal → Bool
  | .none => false
  | .num q => decide (q ≠ 0)
  | .nan => true

/-- A Python float: a finite value (modelled as a rational) or NaN. -/
inductive PyFloat where
  | fin (q : ℚ)
  | nan
deriving DecidableEq, Repr

/-- Python truthiness of a float: `0.0` is falsy, NaN is truthy. -/
def PyFloat.truthy : PyFloat → Bool
  | .fin q => decide (q ≠ 0)
  | .nan => true

/-- Embedding of Python `float(v)`: fails (raises) on `None`. -/
def pyFloat : PyVal → Except Unit PyFloat
  | .none => .error ()
  | .num q => .ok (.fin q)
  | .nan => .ok .nan

/-- Embedding of the Python idiom `float(v or 0)` used throughout
`app.py`: a falsy value is replaced by `0` before conversion, so the
result is total; NaN is truthy and passes through unchanged. -/
def pyFloatOr0 : PyVal → PyFloat
  | .none => .fin 0
  | .num q => .fin q
  | .nan => .nan

/-- Python `abs` on a float: `abs(nan) = nan`. -/
def pyFloatAbs : PyFloat → PyFloat
  | .fin q => .fin |q|
  | .nan => .nan

/-- Python `int()` truncation toward zero on a finite float. -/
def pyTrunc (q : ℚ) : ℤ :=
  if 0 ≤ q then ⌊q⌋ else ⌈q⌉

/-- Embedding of `int(float(v or 0))` (and of `int(v or 0)` on the
yfinance path, which coincides with it on numeric values): raises on NaN
(`int(nan)` is a `ValueError`), truncates otherwise. -/
def pyIntOr0 (v : PyVal) : Except Unit ℤ :=
  match pyFloatOr0 v with
  | .fin q => .ok (pyTrunc q)
  | .nan => .error ()

/-- Python `<=` between floats: any comparison involving NaN is false. -/
def pyLeB : PyFloat → PyFloat → Bool
  | .fin a, .fin b => decide (a ≤ b)
  | .fin _, .nan => false
  | .nan, _ => false

/-- Round-half-to-even of a rational to an integer, the rounding used by
Python's builtin `round`. -/
def roundHalfEven (x : ℚ) : ℤ :=
  if x - ⌊x⌋ < 1/2 then ⌊x⌋
  else if 1/2 < x - ⌊x⌋ then ⌊x⌋ + 1
  else if ⌊x⌋ % 2 = 0 then ⌊x⌋ else ⌊x⌋ + 1

/-- Embedding of Python `round(q, 4)` on a finite value. -/
def round4 (q : ℚ) : ℚ :=
  (roundHalfEven (q * 10000) : ℚ) / 10000

/-- Embedding of Python `round(x, 4)` on a float: `round(nan, 4) = nan`. -/
def pyRound4 : PyFloat → PyFloat
  | .fin q => .fin (round4 q)
  | .nan => .nan

/-- A market-data dictionary as returned by
`r.options.get_option_market_data` (src/app.py lines 136-137, 220).  A
missing key and a `None` value are both modelled as `PyVal.none`, since
`md.get(k, 0) or 0` and `md.get(k)` treat them alike. -/
structure MarketData where
  implied_volatility : PyVal
  bid_price : PyVal
  ask_price : PyVal
  volume : PyVal
  open_interest : PyVal
  delta : PyVal
deriving DecidableEq, Repr

/-- An element of the list returned by `get_option_market_data`: the code
tolerates both a dict and a nested list of dicts (src/app.py lines
142-145, 223-225). -/
inductive MDItem where
  | dict (md : MarketData)
  | list (l : List MarketData)
deriving DecidableEq, Repr

/-- The dict whose every `get` yields the default: models `md = {}`. -/
def emptyMD : MarketData :=
  ⟨.none, .none, .none, .none, .none, .none⟩

/-- Embedding of src/app.py lines 139-145 / 221-225: `if not md: continue`
(an empty reply is skipped), then `md = md[0]`, and if that is itself a
list, `md = md[0] if md else {}`. -/
def extractMD : List MDItem → Option MarketData
  | [] => Option.none
  | .dict md :: _ => some md
  | .list [] :: _ => some emptyMD
  | .list (md :: _) :: _ => some md

/-- A normalized option contract of the canonical response
(src/app.py lines 227-235 and 275-283). -/
structure Contract where
  strike : PyFloat
  bid : PyFloat
  ask : PyFloat
  volume : ℤ
  openInterest : ℤ
  impliedVolatility : PyFloat
  expiration : ℤ
deriving DecidableEq, Repr

/-- One per-expiration group of the canonical response:
`{"expirationDate": exp_ts, "calls": call_list}` (lines 238, 284). -/
structure ExpirationGroup where
  expirationDate : ℤ
  calls : List Contract
deriving DecidableEq, Repr

/-- The canonical aggregated response body built at src/app.py lines
240-249 and 286-295; `regularMarketPrice` is the quote field of the single
`optionChain.result` entry. -/
structure AggregatedResponse where
  source : String
  regularMarketPrice : PyFloat
  expirationDates : List ℤ
  options : List ExpirationGroup
deriving DecidableEq, Repr

/-- A row of the yfinance calls DataFrame (src/app.py lines 274-283);
pandas cells can be genuine NaN. -/
structure YFRow where
  strike : PyVal
  bid : PyVal
  ask : PyVal
  volume : PyVal
  openInterest : PyVal
  impliedVolatility : PyVal
deriving DecidableEq, Repr

/-- One entry of the flat options list built by the broker endpoint
`get_options` (src/app.py lines 162-173).  The strike comes from a
decimal-string `strike_price`, hence is finite. -/
structure BrokerRow where
  strike : ℚ
  exp : ℤ
  dte : ℤ
  delta : PyFloat
  bid : PyFloat
  ask : PyFloat
  oi : ℤ
  vol : ℤ
deriving DecidableEq, Repr

/-- Embedding of `float(price_list[0]) if price_list and price_list[0]
else None` (src/app.py lines 84, 101, 196): `None` when the list is empty
or its first element is falsy, otherwise the converted first element. -/
def latestPrice (l : List PyVal) : Except Unit (Option PyFloat) :=
  match l with
  | [] => .ok Option.none
  | v :: _ =>
    if v.truthy then
      match pyFloat v with
      | .error e => .error e
      | .ok f => .ok (some f)
    else .ok Option.none

/-- Outcome of the `/api/quote/<symbol>` handler: HTTP 200 with
`{"success": true, "price": ...}`, or HTTP 500. -/
inductive QuoteResult where
  | success (price : Option PyFloat)
  | failure
deriving DecidableEq, Repr

/-- Embedding of `get_quote` (src/app.py lines 80-87).  `priceRes` is the
outcome of the provider call `r.stocks.get_latest_price(symbol)`; an
exception anywhere in the `try` block yields the 500 branch. -/
def get_quote (priceRes : Except Unit (List PyVal)) : QuoteResult :=
  match priceRes with
  | .error _ => .failure
  | .ok l =>
    match latestPrice l with
    | .error _ => .failure
    | .ok sp => .success sp

/-- Embedding of the DTE filter of `get_options` (src/app.py lines
110-119): keep a date `d` when `today + minDte ≤ d ≤ today + maxDte`,
both bounds inclusive (`target_min <= exp_date <= target_max`). -/
def filterExpirations (today minDte maxDte : ℤ) (dates : List ℤ) : List ℤ :=
  dates.filter (fun d => decide (today + minDte ≤ d) && decide (d ≤ today + maxDte))

/-- Embedding of the inline DTE guard of `yahoo_options` (src/app.py
lines 207-209, 266-268): `dte = (exp_date - today).days`, skip when
`dte < 20 or dte > 60`. -/
def inWindow2060 (today d : ℤ) : Bool :=
  !(decide (d - today < 20) || decide (d - today > 60))

/-- The epoch timestamp of a date's midnight,
`int(datetime.strptime(exp_str, "%Y-%m-%d").timestamp())` (src/app.py
lines 210, 269), with dates modelled as day numbers. -/
def expTimestamp (d : ℤ) : ℤ := 86400 * d

/-- Embedding of the per-contract normalization of the Robinhood branch of
`yahoo_options` (src/app.py lines 226-235), after the market-data dict
`md` has been extracted; raises exactly when `int(float(x or 0))` meets
NaN on `volume` or `open_interest`. -/
def buildContractRH (exp_ts : ℤ) (strike : ℚ) (md : MarketData) : Except Unit Contract :=
  match pyIntOr0 md.volume, pyIntOr0 md.open_interest with
  | .ok vol, .ok oi =>
    .ok ⟨.fin strike, pyFloatOr0 md.bid_price, pyFloatOr0 md.ask_price,
         vol, oi, pyFloatAbs (pyFloatOr0 md.implied_volatility), exp_ts⟩
  | _, _ => .error ()

/-- Embedding of the inner `try` body of src/app.py lines 219-237 for one
option with a truthy strike: a raising market-data fetch, a falsy reply,
or a raising conversion all `continue` (yield no contract). -/
def contractRH (exp_ts : ℤ) (strike : ℚ) (mdRes : Except Unit (List MDItem)) :
    Option Contract :=
  match mdRes with
  | .error _ => Option.none
  | .ok items =>
    match extractMD items with
    | Option.none => Option.none
    | some md => (buildContractRH exp_ts strike md).toOption

/-- Embedding of the Robinhood expiration loop of `yahoo_options`
(src/app.py lines 203-238), returning the pair
`(exp_timestamps, all_options)`.  Strikes are `Option ℚ` (`None` or a
decimal string; `if not strike: continue`).  The chain-list fetch
`find_options_by_expiration` (line 213) is NOT inside the inner `try`: an
exception there aborts the whole Robinhood attempt. -/
def rhLoop (today : ℤ) (findOpts : ℤ → Except Unit (Option (List (Option ℚ))))
    (mdFetch : ℤ → ℚ → Except Unit (List MDItem)) :
    List ℤ → Except Unit (List ℤ × List ExpirationGroup)
  | [] => .ok ([], [])
  | d :: rest =>
    if inWindow2060 today d then
      match findOpts d with
      | .error e => .error e
      | .ok opts =>
        let calls := (opts.getD []).filterMap (fun s =>
          match s with
          | Option.none => Option.none
          | some q => contractRH (expTimestamp d) q (mdFetch d q))
        match rhLoop today findOpts mdFetch rest with
        | .error e => .error e
        | .ok (ts, gs) => .ok (expTimestamp d :: ts, ⟨expTimestamp d, calls⟩ :: gs)
    else rhLoop today findOpts mdFetch rest

/-- Embedding of src/app.py lines 195-198: obtain the stock price and
`raise ValueError("No price")` when it is `None` or falsy. -/
def rhStockPrice (priceRes : Except Unit (List PyVal)) : Except Unit PyFloat :=
  match priceRes with
  | .error e => .error e
  | .ok l =>
    match latestPrice l with
    | .error e => .error e
    | .ok Option.none => .error ()
    | .ok (some f) => if f.truthy then .ok f else .error ()

/-- Embedding of the whole Robinhood branch of `yahoo_options`
(src/app.py lines 193-250): price, `get_chains` (with
`chains.get("expiration_dates", []) if chains else []`), the expiration
loop, and the canonical result tagged `"robinhood"`. -/
def rhPath (today : ℤ) (priceRes : Except Unit (List PyVal))
    (chainsRes : Except Unit (Option (List ℤ)))
    (findOpts : ℤ → Except Unit (Option (List (Option ℚ))))
    (mdFetch : ℤ → ℚ → Except Unit (List MDItem)) :
    Except Unit AggregatedResponse :=
  match rhStockPrice priceRes with
  | .error e => .error e
  | .ok f =>
    match chainsRes with
    | .error e => .error e
    | .ok chains =>
      match rhLoop today findOpts mdFetch (chains.getD []) with
      | .error e => .error e
      | .ok (ts, gs) => .ok ⟨"robinhood", f, ts, gs⟩

/-- Number of `find_options_by_expiration` chain fetches the Robinhood
loop of `yahoo_options` performs on a given expiration list: one per
in-window date, stopping after a fetch that raises. -/
def rhChainFetches (today : ℤ) (findOpts : ℤ → Except Unit (Option (List (Option ℚ)))) :
    List ℤ → ℕ
  | [] => 0
  | d :: rest =>
    if inWindow2060 today d then
      match findOpts d with
      | .error _ => 1
      | .ok _ => 1 + rhChainFetches today findOpts rest
    else rhChainFetches today findOpts rest

/-- Embedding of the per-row normalization of the yfinance branch
(src/app.py lines 275-283).  There is no per-row `try`: a raising
conversion (e.g. `int` of NaN) propagates. -/
def buildContractYF (exp_ts : ℤ) (row : YFRow) : Except Unit Contract :=
  match pyFloat row.strike, pyIntOr0 row.volume, pyIntOr0 row.openInterest with
  | .ok strike, .ok vol, .ok oi =>
    .ok ⟨strike, pyFloatOr0 row.bid, pyFloatOr0 row.ask,
         vol, oi, pyFloatOr0 row.impliedVolatility, exp_ts⟩
  | _, _, _ => .error ()

/-- Embedding of the yfinance expiration loop (src/app.py lines 262-284):
`ticker.option_chain(exp_str)` (line 272) is unguarded, so a raising
per-expiration fetch or row conversion aborts the whole branch. -/
def yfLoop (today : ℤ) (chainFetch : ℤ → Except Unit (List YFRow)) :
    List ℤ → Except Unit (List ℤ × List ExpirationGroup)
  | [] => .ok ([], [])
  | d :: rest =>
    if inWindow2060 today d then
      match chainFetch d with
      | .error e => .error e
      | .ok rows =>
        match rows.mapM (buildContractYF (expTimestamp d)) with
        | .error e => .error e
        | .ok calls =>
          match yfLoop today chainFetch rest with
          | .error e => .error e
          | .ok (ts, gs) => .ok (expTimestamp d :: ts, ⟨expTimestamp d, calls⟩ :: gs)
    else yfLoop today chainFetch rest

/-- Embedding of the yfinance branch of `yahoo_options` (src/app.py lines
255-296): `float(info.last_price)`, `ticker.options`, the expiration
loop, and the canonical result tagged `"yfinance"`. -/
def yfPath (today : ℤ) (fastInfoPrice : Except Unit PyVal)
    (expirationsRes : Except Unit (List ℤ))
    (chainFetch : ℤ → Except Unit (List YFRow)) :
    Except Unit AggregatedResponse :=
  match fastInfoPrice with
  | .error e => .error e
  | .ok pv =>
    match pyFloat pv with
    | .error e => .error e
    | .ok f =>
      match expirationsRes with
      | .error e => .error e
      | .ok exps =>
        match yfLoop today chainFetch exps with
        | .error e => .error e
        | .ok (ts, gs) => .ok ⟨"yfinance", f, ts, gs⟩

/-- Outcome of the `/api/yahoo/options/<symbol>` handler: 200 with the
canonical body, 502 from the yfinance `except` branch (line 298), or 502
`"No data source available"` (line 300). -/
inductive YahooResult where
  | success (resp : AggregatedResponse)
  | upstreamError
  | noSource
deriving DecidableEq, Repr

/-- The fall-through of `yahoo_options` after the Robinhood branch
(src/app.py lines 254-300): try yfinance if the library is present,
otherwise report no data source. -/
def yfFallback (yfAvailable : Bool) (yfResult : Except Unit AggregatedResponse) :
    YahooResult :=
  if yfAvailable then
    match yfResult with
    | .ok resp => .success resp
    | .error _ => .upstreamError
  else .noSource

/-- Embedding of the `yahoo_options` orchestration (src/app.py lines
186-300).  `rhAttempt n` is the `AggregatedResponse` computation the
Robinhood block (in this embedding, `rhPath` on that attempt's provider
replies) would produce on its `n`-th run; the second component counts how
many times the Robinhood block was actually run.  The code guards the
block with `if rh_logged_in and r:`, runs it at most once, and on any
exception falls through to yfinance (lines 251-252) with no session
invalidation and no retry. -/
def yahoo_options (rhLoggedIn rAvailable : Bool)
    (rhAttempt : ℕ → Except Unit AggregatedResponse)
    (yfAvailable : Bool) (yfResult : Except Unit AggregatedResponse) :
    YahooResult × ℕ :=
  if rhLoggedIn && rAvailable then
    match rhAttempt 0 with
    | .ok resp => (.success resp, 1)
    | .error _ => (yfFallback yfAvailable yfResult, 1)
  else (yfFallback yfAvailable yfResult, 0)

/-- Embedding of the per-option body of `get_options` after the
market-data dict is extracted (src/app.py lines 147-173): skip when
`delta` is `None`; take `abs(float(delta))`; keep the contract only when
`min_delta <= |delta| <= max_delta` (a NaN delta fails the chained
comparison); the emitted `delta` field is `round(delta_val, 4)`. -/
def buildBrokerRow (today : ℤ) (minD maxD : ℚ) (exp_d : ℤ) (strike : ℚ)
    (md : MarketData) : Except Unit (Option BrokerRow) :=
  match md.delta with
  | .none => .ok Option.none
  | dv =>
    match pyFloat dv with
    | .error e => .error e
    | .ok d0 =>
      let dAbs := pyFloatAbs d0
      if pyLeB (.fin minD) dAbs && pyLeB dAbs (.fin maxD) then
        match pyIntOr0 md.open_interest, pyIntOr0 md.volume with
        | .ok oi, .ok vol =>
          .ok (some ⟨strike, exp_d, exp_d - today, pyRound4 dAbs,
                     pyFloatOr0 md.bid_price, pyFloatOr0 md.ask_price, oi, vol⟩)
        | _, _ => .error ()
      else .ok Option.none

/-- Embedding of the inner `try` of `get_options` for one option with a
truthy strike (src/app.py lines 135-175): a raising fetch, a falsy reply,
or a raising conversion all `continue`. -/
def contractBroker (today : ℤ) (minD maxD : ℚ) (exp_d : ℤ) (strike : ℚ)
    (mdRes : Except Unit (List MDItem)) : Option BrokerRow :=
  match mdRes with
  | .error _ => Option.none
  | .ok items =>
    match extractMD items with
    | Option.none => Option.none
    | some md =>
      match buildBrokerRow today minD maxD exp_d strike md with
      | .error _ => Option.none
      | .ok r => r

/-- Embedding of the expiration loop of `get_options` (src/app.py lines
121-175) over the already-filtered `valid_dates`.  The chain-list fetch
(line 124) is outside the inner `try`: an exception there fails the whole
request; a falsy reply skips the date (`if not opts: continue`, which
coincides with looping over an empty list). -/
def brokerLoop (today : ℤ) (minD maxD : ℚ)
    (findOpts : ℤ → Except Unit (Option (List (Option ℚ))))
    (mdFetch : ℤ → ℚ → Except Unit (List MDItem)) :
    List ℤ → Except Unit (List BrokerRow)
  | [] => .ok []
  | d :: rest =>
    match findOpts d with
    | .error e => .error e
    | .ok opts =>
      let rows := (opts.getD []).filterMap (fun s =>
        match s with
        | Option.none => Option.none
        | some q => contractBroker today minD maxD d q (mdFetch d q))
      match brokerLoop today minD maxD findOpts mdFetch rest with
      | .error e => .error e
      | .ok rest2 => .ok (rows ++ rest2)

/-- The comparator of `options.sort(key=lambda x: (x["exp"], x["strike"]))`
(src/app.py line 177): lexicographic on the (expiration, strike) pair. -/
def rowKeyLe (a b : BrokerRow) : Bool :=
  decide (a.exp < b.exp) || (decide (a.exp = b.exp) && decide (a.strike ≤ b.strike))

/-- The comparator as a decidable relation. -/
def rowLe (a b : BrokerRow) : Prop := rowKeyLe a b = true

instance (a b : BrokerRow) : Decidable (rowLe a b) :=
  inferInstanceAs (Decidable (rowKeyLe a b = true))

/-- Embedding of the sort at src/app.py line 177.  Python's `list.sort` is
a stable comparison sort on the key; it is modelled by a stable insertion
sort over the same comparator, which is observably equivalent. -/
def sortBrokerRows (rows : List BrokerRow) : List BrokerRow :=
  List.insertionSort rowLe rows

/-- Outcome of the `/api/options/<symbol>` handler: 200 with
`{"success": true, "stock_price": ..., "options": [...]}`, 404 when
`get_chains` returns a falsy reply, or 500 when the `try` block raises. -/
inductive BrokerResult where
  | success (stock_price : Option PyFloat) (options : List BrokerRow)
  | notFound
  | failure
deriving DecidableEq, Repr

/-- The `try` body of `get_options` (src/app.py lines 98-181) in the
exception monad. -/
def get_optionsE (today minDte maxDte : ℤ) (minD maxD : ℚ)
    (priceRes : Except Unit (List PyVal))
    (chainsRes : Except Unit (Option (List ℤ)))
    (findOpts : ℤ → Except Unit (Option (List (Option ℚ))))
    (mdFetch : ℤ → ℚ → Except Unit (List MDItem)) :
    Except Unit BrokerResult :=
  match priceRes with
  | .error e => .error e
  | .ok l =>
    match latestPrice l with
    | .error e => .error e
    | .ok sp =>
      match chainsRes with
      | .error e => .error e
      | .ok Option.none => .ok .notFound
      | .ok (some expiration_dates) =>
        match brokerLoop today minD maxD findOpts mdFetch
            (filterExpirations today minDte maxDte expiration_dates) with
        | .error e => .error e
        | .ok rows => .ok (.success sp (sortBrokerRows rows))

/-- Embedding of the `get_options` handler (src/app.py lines 90-183): the
`try` body, with any exception mapped to the 500 branch. -/
def get_options (today minDte maxDte : ℤ) (minD maxD : ℚ)
    (priceRes : Except Unit (List PyVal))
    (chainsRes : Except Unit (Option (List ℤ)))
    (findOpts : ℤ → Except Unit (Option (List (Option ℚ))))
    (mdFetch : ℤ → ℚ → Except Unit (List MDItem)) : BrokerResult :=
  match get_optionsE today minDte maxDte minD maxD priceRes chainsRes findOpts mdFetch with
  | .error _ => .failure
  | .ok r => r

/-! Helper lemmas. -/

/-- The real-valued DTE of an expiration timestamp is the integer day
difference: dates are midnights, so the division is exact. -/
theorem dte_ratio_eq (today e : ℤ) :
    ((expTimestamp e : ℚ) - (expTimestamp today : ℚ)) / 86400 = (e : ℚ) - (today : ℚ) := by
  unfold expTimestamp
  push_cast
  field_simp
  ring

/-- The price extraction of src/app.py line 84 never raises in this value
model: the only raising conversion, `float(None)`, is guarded by the
truthiness check. -/
theorem latestPrice_ok (l : List PyVal) : ∃ sp, latestPrice l = .ok sp := by
  match l with
  | [] => exact ⟨Option.none, rfl⟩
  | v :: rest =>
    cases v with
    | none => exact ⟨Option.none, rfl⟩
    | num q =>
      by_cases h : q = 0 <;>
        simp [latestPrice, PyVal.truthy, pyFloat, h]
    | nan => exact ⟨some .nan, rfl⟩

/-- C5: the expiration filter keeps exactly the elements whose real-valued
DTE `(e - now)/86400` lies in the inclusive window `[minDte, maxDte]`,
preserving input order (it is a `List.filter`, hence a sublist), and it is
idempotent. -/
theorem C5_expiration_filter (today minDte maxDte : ℤ) (E : List ℤ) :
    filterExpirations today minDte maxDte E =
      E.filter (fun e => decide ((minDte : ℚ) ≤
          ((expTimestamp e : ℚ) - (expTimestamp today : ℚ)) / 86400 ∧
        ((expTimestamp e : ℚ) - (expTimestamp today : ℚ)) / 86400 ≤ (maxDte : ℚ))) ∧
    filterExpirations today minDte maxDte (filterExpirations today minDte maxDte E) =
      filterExpirations today minDte maxDte E ∧
    (filterExpirations today minDte maxDte E).Sublist E := by
  refine ⟨?_, ?_, List.filter_sublist _⟩
  · apply List.filter_congr
    intro e _
    rw [← Bool.decide_and]
    apply decide_eq_decide.mpr
    rw [dte_ratio_eq]
    have h1 : ((minDte : ℚ) ≤ (e : ℚ) - (today : ℚ)) ↔ (today + minDte ≤ e) := by
      rw [le_sub_iff_add_le, ← Int.cast_add, Int.cast_le]
      omega
    have h2 : ((e : ℚ) - (today : ℚ) ≤ (maxDte : ℚ)) ↔ (e ≤ today + maxDte) := by
      rw [sub_le_iff_le_add, ← Int.cast_add, Int.cast_le]
      omega
    rw [h1, h2]
  · unfold filterExpirations
    rw [List.filter_filter]
    apply List.filter_congr
    intro e _
    exact Bool.and_self _

/-- C9: the quote endpoint answers 200 with a null price whenever the
provider returns an empty list or a falsy first element, and answers 500
exactly when the provider call raises. -/
theorem C9_quote_null_price :
    (∀ l : List PyVal, (l = [] ∨ ∃ v, l.head? = some v ∧ v.truthy = false) →
      get_quote (.ok l) = .success Option.none) ∧
    (∀ priceRes : Except Unit (List PyVal),
      get_quote priceRes = .failure ↔ priceRes = .error ()) := by
  constructor
  · rintro l (rfl | ⟨v, hv, hfalsy⟩)
    · rfl
    · match l, hv with
      | v :: rest, rfl => simp [get_quote, latestPrice, hfalsy]
  · intro priceRes
    cases priceRes with
    | error e => cases e; exact ⟨fun _ => rfl, fun _ => rfl⟩
    | ok l =>
      obtain ⟨sp, hsp⟩ := latestPrice_ok l
      simp [get_quote, hsp]

/-- Witness for C9 at concrete inputs: the empty reply and a reply whose
first element is `None` both give a 200 null-price answer. -/
theorem C9_witness : get_quote (Except.ok ([] : List PyVal)) = .success Option.none ∧
    get_quote (Except.ok [PyVal.none, PyVal.num 3]) = .success Option.none :=
  ⟨C9_quote_null_price.1 [] (Or.inl rfl),
   C9_quote_null_price.1 [PyVal.none, PyVal.num 3] (Or.inr ⟨PyVal.none, rfl, rfl⟩)⟩

/-- C4: with a price in hand and an empty (or absent) expiration list, each
provider branch returns a degraded response carrying its own source tag,
the obtained price, and empty `expirationDates` and `options`. -/
theorem C4_degraded_on_empty_expirations :
    (∀ (today : ℤ) (priceRes : Except Unit (List PyVal))
        (chainsRes : Except Unit (Option (List ℤ)))
        (findOpts : ℤ → Except Unit (Option (List (Option ℚ))))
        (mdFetch : ℤ → ℚ → Except Unit (List MDItem)) (f : PyFloat),
      rhStockPrice priceRes = .ok f →
      (chainsRes = .ok Option.none ∨ chainsRes = .ok (some [])) →
      rhPath today priceRes chainsRes findOpts mdFetch = .ok ⟨"robinhood", f, [], []⟩) ∧
    (∀ (today : ℤ) (fastInfoPrice : Except Unit PyVal) (f : PyFloat)
        (chainFetch : ℤ → Except Unit (List YFRow)) (pv : PyVal),
      fastInfoPrice = .ok pv → pyFloat pv = .ok f →
      yfPath today fastInfoPrice (.ok []) chainFetch = .ok ⟨"yfinance", f, [], []⟩) := by
  constructor
  · intro today priceRes chainsRes findOpts mdFetch f hf hchains
    unfold rhPath
    rw [hf]
    rcases hchains with rfl | rfl <;> rfl
  · intro today fastInfoPrice f chainFetch pv hpv hf
    subst hpv
    simp [yfPath, hf, yfLoop]

/-- Witness for C4: concrete degraded runs of both provider branches. -/
theorem C4_witness :
    rhPath 0 (Except.ok [PyVal.num 150]) (Except.ok Option.none)
        (fun _ => Except.ok Option.none) (fun _ _ => Except.error ()) =
      Except.ok ⟨"robinhood", .fin 150, [], []⟩ ∧
    yfPath 0 (Except.ok (PyVal.num 150)) (Except.ok []) (fun _ => Except.ok []) =
      Except.ok ⟨"yfinance", .fin 150, [], []⟩ :=
  ⟨C4_degraded_on_empty_expirations.1 0 _ _ _ _ (.fin 150) rfl (Or.inl rfl),
   C4_degraded_on_empty_expirations.2 0 _ (.fin 150) _ (PyVal.num 150) rfl rfl⟩

/-- In a completed Robinhood expiration loop, the timestamp list is
exactly the expiration dates of the produced groups, in order. -/
theorem rhLoop_dates_eq (today : ℤ) (findOpts : ℤ → Except Unit (Option (List (Option ℚ))))
    (mdFetch : ℤ → ℚ → Except Unit (List MDItem)) :
    ∀ (dates ts : List ℤ) (gs : List ExpirationGroup),
      rhLoop today findOpts mdFetch dates = .ok (ts, gs) →
      ts = List.map ExpirationGroup.expirationDate gs := by
  intro dates
  induction dates with
  | nil =>
    intro ts gs h
    simp only [rhLoop, Except.ok.injEq, Prod.mk.injEq] at h
    simp [← h.1, ← h.2]
  | cons d rest ih =>
    intro ts gs h
    simp only [rhLoop] at h
    by_cases hw : inWindow2060 today d
    · rw [if_pos hw] at h
      cases hf : findOpts d with
      | error e => rw [hf] at h; exact absurd h (by simp)
      | ok opts =>
        rw [hf] at h
        cases hr : rhLoop today findOpts mdFetch rest with
        | error e => rw [hr] at h; exact absurd h (by simp)
        | ok p =>
          obtain ⟨ts2, gs2⟩ := p
          rw [hr] at h
          simp only [Except.ok.injEq, Prod.mk.injEq] at h
          rw [← h.1, ← h.2]
          simp [ih ts2 gs2 hr]
    · rw [if_neg hw] at h
      exact ih ts gs h

/-- In a completed yfinance expiration loop, the timestamp list is exactly
the expiration dates of the produced groups, in order. -/
theorem yfLoop_dates_eq (today : ℤ) (chainFetch : ℤ → Except Unit (List YFRow)) :
    ∀ (dates ts : List ℤ) (gs : List ExpirationGroup),
      yfLoop today chainFetch dates = .ok (ts, gs) →
      ts = List.map ExpirationGroup.expirationDate gs := by
  intro dates
  induction dates with
  | nil =>
    intro ts gs h
    simp only [yfLoop, Except.ok.injEq, Prod.mk.injEq] at h
    simp [← h.1, ← h.2]
  | cons d rest ih =>
    intro ts gs h
    simp only [yfLoop] at h
    by_cases hw : inWindow2060 today d
    · rw [if_pos hw] at h
      cases hf : chainFetch d with
      | error e => rw [hf] at h; exact absurd h (by simp)
      | ok rows =>
        rw [hf] at h
        dsimp only at h
        cases hm : rows.mapM (buildContractYF (expTimestamp d)) with
        | error e => rw [hm] at h; exact absurd h (by simp)
        | ok calls =>
          rw [hm] at h
          dsimp only at h
          cases hr : yfLoop today chainFetch rest with
          | error e => rw [hr] at h; exact absurd h (by simp)
          | ok p =>
            obtain ⟨ts2, gs2⟩ := p
            rw [hr] at h
            simp only [Except.ok.injEq, Prod.mk.injEq] at h
            rw [← h.1, ← h.2]
            simp [ih ts2 gs2 hr]
    · rw [if_neg hw] at h
      exact ih ts gs h

/-- C8: in every successful response of either provider branch,
`expirationDates` equals the sequence of `expirationDate` values of the
groups in `options`, in the same order and with the same length (groups
with empty call lists included, since both are appended unconditionally
per surviving expiration). -/
theorem C8_expirationDates_exact :
    (∀ (today : ℤ) (priceRes : Except Unit (List PyVal))
        (chainsRes : Except Unit (Option (List ℤ)))
        (findOpts : ℤ → Except Unit (Option (List (Option ℚ))))
        (mdFetch : ℤ → ℚ → Except Unit (List MDItem)) (resp : AggregatedResponse),
      rhPath today priceRes chainsRes findOpts mdFetch = .ok resp →
      resp.expirationDates = List.map ExpirationGroup.expirationDate resp.options) ∧
    (∀ (today : ℤ) (fastInfoPrice : Except Unit PyVal)
        (expirationsRes : Except Unit (List ℤ))
        (chainFetch : ℤ → Except Unit (List YFRow)) (resp : AggregatedResponse),
      yfPath today fastInfoPrice expirationsRes chainFetch = .ok resp →
      resp.expirationDates = List.map ExpirationGroup.expirationDate resp.options) := by
  constructor
  · intro today priceRes chainsRes findOpts mdFetch resp h
    unfold rhPath at h
    split at h
    · exact absurd h (by simp)
    · split at h
      · exact absurd h (by simp)
      · split at h
        · exact absurd h (by simp)
        · rename_i f _ chains ts gs hloop
          simp only [Except.ok.injEq] at h
          rw [← h]
          exact rhLoop_dates_eq today findOpts mdFetch _ ts gs hloop
  · intro today fastInfoPrice expirationsRes chainFetch resp h
    unfold yfPath at h
    cases fastInfoPrice with
    | error e => exact absurd h (by simp)
    | ok pv =>
      dsimp only at h
      cases hpf : pyFloat pv with
      | error e => rw [hpf] at h; exact absurd h (by simp)
      | ok f =>
        rw [hpf] at h
        dsimp only at h
        cases expirationsRes with
        | error e => exact absurd h (by simp)
        | ok exps =>
          dsimp only at h
          cases hloop : yfLoop today chainFetch exps with
          | error e => rw [hloop] at h; exact absurd h (by simp)
          | ok p =>
            obtain ⟨ts, gs⟩ := p
            rw [hloop] at h
            simp only [Except.ok.injEq] at h
            rw [← h]
            exact yfLoop_dates_eq today chainFetch exps ts gs hloop

/-- Witness for C8: a concrete successful Robinhood run with one surviving
expiration whose call list is empty. -/
theorem C8_witness :
    AggregatedResponse.expirationDates ⟨"robinhood", .fin 150, [expTimestamp 30], [⟨expTimestamp 30, []⟩]⟩ =
      List.map ExpirationGroup.expirationDate
        (AggregatedResponse.options ⟨"robinhood", .fin 150, [expTimestamp 30], [⟨expTimestamp 30, []⟩]⟩) :=
  C8_expirationDates_exact.1 0 (Except.ok [PyVal.num 150]) (Except.ok (some [30]))
    (fun _ => Except.ok Option.none) (fun _ _ => Except.error ()) _ rfl

/-- The Robinhood expiration loop raises exactly when the chain-list fetch
of some in-window expiration raises; per-contract market-data failures
(`mdFetch`) never make it raise. -/
theorem rhLoop_error_iff (today : ℤ) (findOpts : ℤ → Except Unit (Option (List (Option ℚ))))
    (mdFetch : ℤ → ℚ → Except Unit (List MDItem)) (dates : List ℤ) :
    rhLoop today findOpts mdFetch dates = .error () ↔
      ∃ d ∈ dates, inWindow2060 today d = true ∧ findOpts d = .error () := by
  induction dates with
  | nil => simp [rhLoop]
  | cons d rest ih =>
    simp only [rhLoop]
    by_cases hw : inWindow2060 today d
    · rw [if_pos hw]
      cases hf : findOpts d with
      | error e =>
        cases e
        simp only [List.mem_cons]
        exact ⟨fun _ => ⟨d, Or.inl rfl, hw, hf⟩, fun _ => trivial⟩
      | ok opts =>
        dsimp only
        cases hr : rhLoop today findOpts mdFetch rest with
        | error e =>
          cases e
          constructor
          · intro _
            obtain ⟨x, hx, hwx, hex⟩ := ih.mp hr
            exact ⟨x, List.mem_cons_of_mem d hx, hwx, hex⟩
          · intro _; rfl
        | ok p =>
          obtain ⟨ts2, gs2⟩ := p
          constructor
          · intro hcontra; exact absurd hcontra (by simp)
          · rintro ⟨x, hx, hwx, hex⟩
            rcases List.mem_cons.mp hx with rfl | hx2
            · rw [hf] at hex; exact absurd hex (by simp)
            · have : rhLoop today findOpts mdFetch rest = .error () :=
                ih.mpr ⟨x, hx2, hwx, hex⟩
              rw [this] at hr
              exact absurd hr (by simp)
    · rw [if_neg hw, ih]
      constructor
      · rintro ⟨x, hx, hwx, hex⟩
        exact ⟨x, List.mem_cons_of_mem d hx, hwx, hex⟩
      · rintro ⟨x, hx, hwx, hex⟩
        rcases List.mem_cons.mp hx with rfl | hx2
        · exact absurd hwx hw
        · exact ⟨x, hx2, hwx, hex⟩

/-- A raising chain fetch for any in-window expiration makes the whole
yfinance expiration loop raise. -/
theorem yfLoop_error_of_mem (today : ℤ) (chainFetch : ℤ → Except Unit (List YFRow))
    (dates : List ℤ) (d : ℤ) (hmem : d ∈ dates) (hw : inWindow2060 today d = true)
    (herr : chainFetch d = .error ()) :
    yfLoop today chainFetch dates = .error () := by
  induction dates with
  | nil => cases hmem
  | cons x rest ih =>
    simp only [yfLoop]
    rcases List.mem_cons.mp hmem with rfl | h2
    · rw [if_pos hw, herr]
    · by_cases hwx : inWindow2060 today x
      · rw [if_pos hwx]
        cases hf : chainFetch x with
        | error e => cases e; rfl
        | ok rows =>
          dsimp only
          cases hm : rows.mapM (buildContractYF (expTimestamp x)) with
          | error e => cases e; rfl
          | ok calls =>
            dsimp only
            rw [ih h2]
      · rw [if_neg hwx]
        exact ih h2

/-- C2 amended: per-expiration fetch failures are NOT isolated.  On the
Robinhood branch the loop raises exactly when some in-window expiration's
chain-list fetch raises (so a single failing expiration aborts the whole
attempt, while per-contract market-data failures are the ones that are
swallowed); on the yfinance branch a single in-window expiration's chain
fetch failure likewise aborts the whole aggregation. -/
theorem C2_amended_per_expiration_failure :
    (∀ (today : ℤ) (findOpts : ℤ → Except Unit (Option (List (Option ℚ))))
        (mdFetch : ℤ → ℚ → Except Unit (List MDItem)) (dates : List ℤ),
      rhLoop today findOpts mdFetch dates = .error () ↔
        ∃ d ∈ dates, inWindow2060 today d = true ∧ findOpts d = .error ()) ∧
    (∀ (today : ℤ) (chainFetch : ℤ → Except Unit (List YFRow)) (dates : List ℤ) (d : ℤ),
      d ∈ dates → inWindow2060 today d = true → chainFetch d = .error () →
      yfLoop today chainFetch dates = .error ()) :=
  ⟨rhLoop_error_iff, yfLoop_error_of_mem⟩

/-- Witness for the amended C2: one in-window expiration whose chain fetch
raises makes both loops raise. -/
theorem C2_witness :
    rhLoop 0 (fun _ => Except.error ()) (fun _ _ => Except.ok []) [30] = Except.error () ∧
    yfLoop 0 (fun _ => Except.error ()) [30] = Except.error () :=
  ⟨(C2_amended_per_expiration_failure.1 0 _ _ [30]).mpr ⟨30, by simp, rfl, rfl⟩,
   C2_amended_per_expiration_failure.2 0 _ [30] 30 (by simp) rfl rfl⟩

/-- Counterexample to C2 as stated: with a single expiration (day 30)
whose chain fetch fails, the whole provider attempt fails — it is not a
degraded success with that expiration omitted. -/
theorem C2_counterexample :
    rhPath 0 (Except.ok [PyVal.num 150]) (Except.ok (some [30]))
        (fun _ => Except.error ()) (fun _ _ => Except.error ()) = Except.error () ∧
    yfPath 0 (Except.ok (PyVal.num 150)) (Except.ok [30])
        (fun _ => Except.error ()) = Except.error () :=
  ⟨rfl, rfl⟩

/-- C6 amended: there is no cap on the per-expiration fan-out; when no
chain fetch raises, the number of chain fetches equals the number of
expirations surviving the DTE filter. -/
theorem C6_amended_no_fetch_cap (today : ℤ)
    (findOpts : ℤ → Except Unit (Option (List (Option ℚ)))) (dates : List ℤ)
    (h : ∀ d, findOpts d ≠ Except.error ()) :
    rhChainFetches today findOpts dates =
      (dates.filter (fun d => inWindow2060 today d)).length := by
  induction dates with
  | nil => rfl
  | cons d rest ih =>
    simp only [rhChainFetches, List.filter_cons]
    by_cases hw : inWindow2060 today d
    · cases hf : findOpts d with
      | error e => cases e; exact absurd hf (h d)
      | ok v => simp [hw, ih]; omega
    · simp [hw, ih]

/-- Witness for the amended C6: of the dates `[30, 100]` only day 30 is in
the 20-60 window, and exactly one chain fetch is performed. -/
theorem C6_witness :
    rhChainFetches 0 (fun _ => Except.ok Option.none) [30, 100] =
      (([30, 100] : List ℤ).filter (fun d => inWindow2060 0 d)).length :=
  C6_amended_no_fetch_cap 0 _ [30, 100] (fun _ => by simp)

/-- Counterexample to C6 as stated: nine expirations survive the filter
and nine chain fetches are performed, exceeding every observed cap
(3-8). -/
theorem C6_counterexample :
    rhChainFetches 0 (fun _ => Except.ok Option.none)
      [30, 31, 32, 33, 34, 35, 36, 37, 38] = 9 ∧ ¬ (9 : ℕ) ≤ 8 :=
  ⟨rfl, by decide⟩

/-- A successful yfinance branch always carries the `"yfinance"` source
tag. -/
theorem yfPath_ok_source (today : ℤ) (fastInfoPrice : Except Unit PyVal)
    (expirationsRes : Except Unit (List ℤ)) (chainFetch : ℤ → Except Unit (List YFRow))
    (resp : AggregatedResponse)
    (h : yfPath today fastInfoPrice expirationsRes chainFetch = .ok resp) :
    resp.source = "yfinance" := by
  unfold yfPath at h
  cases fastInfoPrice with
  | error e => exact absurd h (by simp)
  | ok pv =>
    dsimp only at h
    cases hpf : pyFloat pv with
    | error e => rw [hpf] at h; exact absurd h (by simp)
    | ok f =>
      rw [hpf] at h
      dsimp only at h
      cases expirationsRes with
      | error e => exact absurd h (by simp)
      | ok exps =>
        dsimp only at h
        cases hloop : yfLoop today chainFetch exps with
        | error e => rw [hloop] at h; exact absurd h (by simp)
        | ok p =>
          obtain ⟨ts, gs⟩ := p
          rw [hloop] at h
          simp only [Except.ok.injEq] at h
          rw [← h]

/-- C1 amended: when the first provider (Robinhood) fails, it is attempted
exactly once — there is no session invalidation and no retry — and the
orchestration falls directly back to yfinance; when yfinance succeeds, the
final response is its result and its source tag is `"yfinance"`. -/
theorem C1_amended_no_retry (rhAttempt : ℕ → Except Unit AggregatedResponse)
    (h0 : rhAttempt 0 = Except.error ()) (today : ℤ)
    (fastInfoPrice : Except Unit PyVal) (expirationsRes : Except Unit (List ℤ))
    (chainFetch : ℤ → Except Unit (List YFRow)) (resp : AggregatedResponse)
    (hyf : yfPath today fastInfoPrice expirationsRes chainFetch = .ok resp) :
    yahoo_options true true rhAttempt true
        (yfPath today fastInfoPrice expirationsRes chainFetch) =
      (.success resp, 1) ∧ resp.source = "yfinance" := by
  constructor
  · simp [yahoo_options, h0, yfFallback, hyf]
  · exact yfPath_ok_source today fastInfoPrice expirationsRes chainFetch resp hyf

/-- Witness for the amended C1: a Robinhood block that fails on every run
and a concrete successful yfinance fallback. -/
theorem C1_witness :
    yahoo_options true true (fun _ => Except.error ()) true
        (yfPath 0 (Except.ok (PyVal.num 150)) (Except.ok []) (fun _ => Except.ok [])) =
      (.success ⟨"yfinance", .fin 150, [], []⟩, 1) ∧
    AggregatedResponse.source ⟨"yfinance", .fin 150, [], []⟩ = "yfinance" :=
  C1_amended_no_retry (fun _ => Except.error ()) rfl 0
    (Except.ok (PyVal.num 150)) (Except.ok []) (fun _ => Except.ok []) _ rfl

/-- Counterexample to C1 as stated: the Robinhood provider fails on every
attempt (in particular on both a first and a hypothetical second attempt)
and yfinance succeeds; the final source tag is indeed `"yfinance"`, but
the Robinhood block was run exactly once, not twice — there is no
invalidate-and-retry. -/
theorem C1_counterexample :
    yahoo_options true true (fun _ => Except.error ()) true
        (Except.ok ⟨"yfinance", .fin 150, [], []⟩) =
      (.success ⟨"yfinance", .fin 150, [], []⟩, 1) ∧
    (yahoo_options true true (fun _ => Except.error ()) true
        (Except.ok ⟨"yfinance", .fin 150, [], []⟩)).2 ≠ 2 :=
  ⟨rfl, by decide⟩

/-- C3 amended: only missing (`None`) or falsy numeric fields normalize to
0.  NaN is not normalized: in the float fields (`bid`, `ask`,
`impliedVolatility`) it propagates into the contract, and in the integer
fields (`volume`, `openInterest`) the `int()` conversion raises, so the
contract is skipped (Robinhood path) or the whole request fails (yfinance
path); in particular a row with `openInterest = NaN` never yields
`openInterest: 0`. -/
theorem C3_amended_nan_not_normalized :
    (∀ (ts : ℤ) (strike : ℚ), buildContractRH ts strike emptyMD =
      Except.ok ⟨.fin strike, .fin 0, .fin 0, 0, 0, .fin 0, ts⟩) ∧
    (∀ (ts : ℤ) (strike : ℚ) (md : MarketData) (c : Contract),
      md.bid_price = .nan → buildContractRH ts strike md = Except.ok c → c.bid = .nan) ∧
    (∀ (ts : ℤ) (strike : ℚ) (md : MarketData),
      md.open_interest = .nan → buildContractRH ts strike md = Except.error ()) ∧
    (∀ (ts : ℤ) (row : YFRow),
      row.openInterest = .nan → buildContractYF ts row = Except.error ()) := by
  refine ⟨fun ts strike => rfl, ?_, ?_, ?_⟩
  · intro ts strike md c hbid h
    unfold buildContractRH at h
    cases hv : pyIntOr0 md.volume with
    | error e => rw [hv] at h; exact absurd h (by simp)
    | ok vol =>
      cases ho : pyIntOr0 md.open_interest with
      | error e => rw [hv, ho] at h; exact absurd h (by simp)
      | ok oi =>
        rw [hv, ho] at h
        simp only [Except.ok.injEq] at h
        rw [← h, hbid]
        rfl
  · intro ts strike md ho
    unfold buildContractRH
    rw [ho]
    cases pyIntOr0 md.volume <;> rfl
  · intro ts row ho
    unfold buildContractYF
    rw [ho]
    cases pyFloat row.strike <;> cases pyIntOr0 row.volume <;> rfl

/-- Witness for the amended C3: a fully-missing market-data dict yields an
all-zero contract, and a concrete NaN `openInterest` raises on the
yfinance path. -/
theorem C3_witness :
    buildContractRH 0 100 emptyMD =
      Except.ok ⟨.fin 100, .fin 0, .fin 0, 0, 0, .fin 0, 0⟩ ∧
    buildContractYF 5 ⟨.num 1, .none, .none, .none, .nan, .none⟩ = Except.error () :=
  ⟨C3_amended_nan_not_normalized.1 0 100,
   C3_amended_nan_not_normalized.2.2.2 5 ⟨.num 1, .none, .none, .none, .nan, .none⟩ rfl⟩

/-- Counterexample to C3 as stated: a contract row with `openInterest =
NaN` does not normalize to `openInterest: 0` — the `int()` conversion
raises on both paths (skipping the contract on the Robinhood path and
failing the whole request on the yfinance path). -/
theorem C3_counterexample :
    buildContractYF 0 ⟨.num 100, .num 1, .num 2, .num 3, .nan, .num 1⟩ = Except.error () ∧
    buildContractRH 0 100 ⟨.num 1, .num 1, .num 1, .num 3, .nan, .none⟩ = Except.error () :=
  ⟨rfl, rfl⟩

/-- The sort comparator of the broker endpoint is transitive. -/
theorem rowKeyLe_trans (a b c : BrokerRow) (h1 : rowKeyLe a b = true)
    (h2 : rowKeyLe b c = true) : rowKeyLe a c = true := by
  simp only [rowKeyLe, Bool.or_eq_true, Bool.and_eq_true, decide_eq_true_eq] at h1 h2 ⊢
  rcases h1 with h1 | ⟨h1e, h1s⟩ <;> rcases h2 with h2 | ⟨h2e, h2s⟩
  · exact Or.inl (h1.trans h2)
  · exact Or.inl (lt_of_lt_of_le h1 (le_of_eq h2e))
  · exact Or.inl (lt_of_le_of_lt (le_of_eq h1e) h2)
  · exact Or.inr ⟨h1e.trans h2e, h1s.trans h2s⟩

/-- The sort comparator of the broker endpoint is total. -/
theorem rowKeyLe_total (a b : BrokerRow) : rowKeyLe a b || rowKeyLe b a := by
  simp only [rowKeyLe, Bool.or_eq_true, Bool.and_eq_true, decide_eq_true_eq]
  rcases lt_trichotomy a.exp b.exp with h | h | h
  · exact Or.inl (Or.inl h)
  · rcases le_total a.strike b.strike with hs | hs
    · exact Or.inl (Or.inr ⟨h, hs⟩)
    · exact Or.inr (Or.inr ⟨h.symm, hs⟩)
  · exact Or.inr (Or.inl h)

/-- The broker sort always produces a list that is ascending by the
(expiration, strike) pair. -/
theorem sortBrokerRows_chain (rows : List BrokerRow) :
    List.Chain' (fun a b => a.exp < b.exp ∨ (a.exp = b.exp ∧ a.strike ≤ b.strike))
      (sortBrokerRows rows) := by
  haveI : IsTotal BrokerRow rowLe := ⟨fun a b => by
    have h := rowKeyLe_total a b
    simp only [Bool.or_eq_true] at h
    exact h⟩
  haveI : IsTrans BrokerRow rowLe := ⟨rowKeyLe_trans⟩
  have hp : (sortBrokerRows rows).Pairwise rowLe :=
    List.sorted_insertionSort rowLe rows
  have hp2 : (sortBrokerRows rows).Pairwise
      (fun a b => a.exp < b.exp ∨ (a.exp = b.exp ∧ a.strike ≤ b.strike)) := by
    refine List.Pairwise.imp (fun hab => ?_) hp
    simpa only [rowLe, rowKeyLe, Bool.or_eq_true, Bool.and_eq_true,
      decide_eq_true_eq] using hab
  exact hp2.chain'

/-- A successful broker-endpoint run always produces the sorted image of
some completed expiration loop. -/
theorem get_optionsE_success_shape (today minDte maxDte : ℤ) (minD maxD : ℚ)
    (priceRes : Except Unit (List PyVal)) (chainsRes : Except Unit (Option (List ℤ)))
    (findOpts : ℤ → Except Unit (Option (List (Option ℚ))))
    (mdFetch : ℤ → ℚ → Except Unit (List MDItem)) (sp : Option PyFloat)
    (rows : List BrokerRow)
    (h : get_optionsE today minDte maxDte minD maxD priceRes chainsRes findOpts mdFetch =
      .ok (.success sp rows)) :
    ∃ (dates : List ℤ) (rows0 : List BrokerRow), rows = sortBrokerRows rows0 ∧
      brokerLoop today minD maxD findOpts mdFetch dates = .ok rows0 := by
  unfold get_optionsE at h
  cases priceRes with
  | error e => exact absurd h (by simp)
  | ok l =>
    dsimp only at h
    cases hlp : latestPrice l with
    | error e => rw [hlp] at h; exact absurd h (by simp)
    | ok sp2 =>
      rw [hlp] at h
      dsimp only at h
      cases chainsRes with
      | error e => exact absurd h (by simp)
      | ok chains =>
        cases chains with
        | none => exact absurd h (by simp)
        | some expiration_dates =>
          dsimp only at h
          cases hbl : brokerLoop today minD maxD findOpts mdFetch
              (filterExpirations today minDte maxDte expiration_dates) with
          | error e => rw [hbl] at h; exact absurd h (by simp)
          | ok rows0 =>
            rw [hbl] at h
            simp only [Except.ok.injEq, BrokerResult.success.injEq] at h
            exact ⟨filterExpirations today minDte maxDte expiration_dates, rows0,
              h.2.symm, hbl⟩

/-- C7: every successful response of the broker options endpoint has its
flat contract list sorted ascending by the (expiration date, strike) pair:
adjacent elements have a strictly earlier expiration, or an equal
expiration and a less-or-equal strike. -/
theorem C7_sorted_by_exp_strike (today minDte maxDte : ℤ) (minD maxD : ℚ)
    (priceRes : Except Unit (List PyVal)) (chainsRes : Except Unit (Option (List ℤ)))
    (findOpts : ℤ → Except Unit (Option (List (Option ℚ))))
    (mdFetch : ℤ → ℚ → Except Unit (List MDItem)) (sp : Option PyFloat)
    (rows : List BrokerRow)
    (h : get_options today minDte maxDte minD maxD priceRes chainsRes findOpts mdFetch =
      .success sp rows) :
    List.Chain' (fun a b => a.exp < b.exp ∨ (a.exp = b.exp ∧ a.strike ≤ b.strike)) rows := by
  unfold get_options at h
  cases hE : get_optionsE today minDte maxDte minD maxD priceRes chainsRes findOpts mdFetch with
  | error e => rw [hE] at h; exact absurd h (by simp)
  | ok r =>
    rw [hE] at h
    dsimp only at h
    rw [h] at hE
    obtain ⟨dates, rows0, hrw, _⟩ :=
      get_optionsE_success_shape today minDte maxDte minD maxD priceRes chainsRes
        findOpts mdFetch sp rows hE
    rw [hrw]
    exact sortBrokerRows_chain rows0

/-- Witness for C7: a concrete run returning two contracts on the same
expiration, emitted with the lower strike first. -/
theorem C7_witness :
    List.Chain' (fun a b => a.exp < b.exp ∨ (a.exp = b.exp ∧ a.strike ≤ b.strike))
      ([⟨90, 35, 35, .fin (1/5), .fin 0, .fin 0, 0, 0⟩,
        ⟨100, 35, 35, .fin (1/5), .fin 0, .fin 0, 0, 0⟩] : List BrokerRow) :=
  C7_sorted_by_exp_strike 0 30 45 (1/10) (3/10) (Except.ok [PyVal.num 150])
    (Except.ok (some [35])) (fun _ => Except.ok (some [some 100, some 90]))
    (fun _ _ => Except.ok [MDItem.dict ⟨.none, .none, .none, .none, .none, .num (2/10)⟩])
    (some (.fin 150)) _ (by with_unfolding_all decide)

/-- Every contract that `buildBrokerRow` emits was admitted by the band
check on the unrounded absolute delta, and carries its 4-decimal rounding
as the `delta` field. -/
theorem buildBrokerRow_some_band (today : ℤ) (minD maxD : ℚ) (exp_d : ℤ) (strike : ℚ)
    (md : MarketData) (r : BrokerRow)
    (h : buildBrokerRow today minD maxD exp_d strike md = .ok (some r)) :
    ∃ x : ℚ, minD ≤ x ∧ x ≤ maxD ∧ r.delta = .fin (round4 x) := by
  unfold buildBrokerRow at h
  cases hd : md.delta with
  | none => rw [hd] at h; exact absurd h (by simp)
  | num q =>
    rw [hd] at h
    dsimp only [pyFloat, pyFloatAbs] at h
    by_cases hband : pyLeB (.fin minD) (.fin |q|) && pyLeB (.fin |q|) (.fin maxD)
    · rw [if_pos hband] at h
      simp only [pyLeB, Bool.and_eq_true, decide_eq_true_eq] at hband
      cases ho : pyIntOr0 md.open_interest with
      | error e => rw [ho] at h; exact absurd h (by simp)
      | ok oi =>
        cases hv : pyIntOr0 md.volume with
        | error e => rw [ho, hv] at h; exact absurd h (by simp)
        | ok vol =>
          rw [ho, hv] at h
          simp only [Except.ok.injEq, Option.some.injEq] at h
          refine ⟨|q|, hband.1, hband.2, ?_⟩
          rw [← h]
          rfl
    · rw [if_neg hband] at h
      exact absurd h (by simp)
  | nan =>
    rw [hd] at h
    dsimp only [pyFloat, pyFloatAbs] at h
    rw [if_neg (by simp [pyLeB])] at h
    exact absurd h (by simp)

/-- Every row a completed broker expiration loop emits satisfies the
unrounded delta-band property. -/
theorem brokerLoop_mem_band (today : ℤ) (minD maxD : ℚ)
    (findOpts : ℤ → Except Unit (Option (List (Option ℚ))))
    (mdFetch : ℤ → ℚ → Except Unit (List MDItem)) :
    ∀ (dates : List ℤ) (rows0 : List BrokerRow),
      brokerLoop today minD maxD findOpts mdFetch dates = .ok rows0 →
      ∀ r ∈ rows0, ∃ x : ℚ, minD ≤ x ∧ x ≤ maxD ∧ r.delta = .fin (round4 x) := by
  intro dates
  induction dates with
  | nil =>
    intro rows0 h r hr
    simp only [brokerLoop, Except.ok.injEq] at h
    rw [← h] at hr
    cases hr
  | cons d rest ih =>
    intro rows0 h r hr
    simp only [brokerLoop] at h
    cases hf : findOpts d with
    | error e => rw [hf] at h; exact absurd h (by simp)
    | ok opts =>
      rw [hf] at h
      dsimp only at h
      cases hb : brokerLoop today minD maxD findOpts mdFetch rest with
      | error e => rw [hb] at h; exact absurd h (by simp)
      | ok rest2 =>
        rw [hb] at h
        simp only [Except.ok.injEq] at h
        rw [← h] at hr
        rcases List.mem_append.mp hr with hr1 | hr2
        · obtain ⟨s, hs, hcb⟩ := List.mem_filterMap.mp hr1
          cases s with
          | none => exact absurd hcb (by simp)
          | some q =>
            dsimp only at hcb
            unfold contractBroker at hcb
            cases hm : mdFetch d q with
            | error e => rw [hm] at hcb; exact absurd hcb (by simp)
            | ok items =>
              rw [hm] at hcb
              dsimp only at hcb
              cases hx : extractMD items with
              | none => rw [hx] at hcb; exact absurd hcb (by simp)
              | some md =>
                rw [hx] at hcb
                dsimp only at hcb
                cases hbb : buildBrokerRow today minD maxD d q md with
                | error e => rw [hbb] at hcb; exact absurd hcb (by simp)
                | ok ropt =>
                  rw [hbb] at hcb
                  dsimp only at hcb
                  rw [hcb] at hbb
                  exact buildBrokerRow_some_band today minD maxD d q md r hbb
        · exact ih rest2 hb r hr2

/-- C10 amended: contracts whose market data has no delta are skipped, and
every contract in the output comes from an unrounded absolute market delta
inside `[min_delta, max_delta]`; the emitted `delta` field is that value
rounded to 4 decimal places (which can lie slightly outside the band when
the band bounds are not multiples of 1/10000). -/
theorem C10_amended_delta_band :
    (∀ (today minDte maxDte : ℤ) (minD maxD : ℚ)
        (priceRes : Except Unit (List PyVal)) (chainsRes : Except Unit (Option (List ℤ)))
        (findOpts : ℤ → Except Unit (Option (List (Option ℚ))))
        (mdFetch : ℤ → ℚ → Except Unit (List MDItem)) (sp : Option PyFloat)
        (rows : List BrokerRow),
      get_options today minDte maxDte minD maxD priceRes chainsRes findOpts mdFetch =
        .success sp rows →
      ∀ r ∈ rows, ∃ x : ℚ, minD ≤ x ∧ x ≤ maxD ∧ r.delta = .fin (round4 x)) ∧
    (∀ (today : ℤ) (minD maxD : ℚ) (exp_d : ℤ) (strike : ℚ) (md : MarketData),
      md.delta = .none →
      buildBrokerRow today minD maxD exp_d strike md = .ok Option.none) := by
  constructor
  · intro today minDte maxDte minD maxD priceRes chainsRes findOpts mdFetch sp rows h r hr
    unfold get_options at h
    cases hE : get_optionsE today minDte maxDte minD maxD priceRes chainsRes findOpts mdFetch with
    | error e => rw [hE] at h; exact absurd h (by simp)
    | ok res =>
      rw [hE] at h
      dsimp only at h
      rw [h] at hE
      obtain ⟨dates, rows0, hrw, hloop⟩ :=
        get_optionsE_success_shape today minDte maxDte minD maxD priceRes chainsRes
          findOpts mdFetch sp rows hE
      rw [hrw] at hr
      have hr0 : r ∈ rows0 := by
        have := List.perm_insertionSort rowLe rows0
        exact this.mem_iff.mp hr
      exact brokerLoop_mem_band today minD maxD findOpts mdFetch dates rows0 hloop r hr0
  · intro today minD maxD exp_d strike md hd
    unfold buildBrokerRow
    rw [hd]

/-- Witness for the amended C10: a concrete run whose single output row
has unrounded delta 22/100 inside the requested band [1/10, 3/10], and a
delta-less market-data dict that is skipped. -/
theorem C10_witness :
    (∃ x : ℚ, 1/10 ≤ x ∧ x ≤ 3/10 ∧
      BrokerRow.delta ⟨100, 35, 35, .fin (11/50), .fin 0, .fin 0, 0, 0⟩ = .fin (round4 x)) ∧
    buildBrokerRow 0 (1/10) (3/10) 35 100 emptyMD = .ok Option.none :=
  ⟨C10_amended_delta_band.1 0 30 45 (1/10) (3/10) (Except.ok [PyVal.num 150])
      (Except.ok (some [35])) (fun _ => Except.ok (some [some 100]))
      (fun _ _ => Except.ok [MDItem.dict ⟨.none, .none, .none, .none, .none, .num (22/100)⟩])
      (some (.fin 150)) [⟨100, 35, 35, .fin (11/50), .fin 0, .fin 0, 0, 0⟩]
      (by with_unfolding_all decide)
      ⟨100, 35, 35, .fin (11/50), .fin 0, .fin 0, 0, 0⟩ (List.mem_singleton.mpr rfl),
   C10_amended_delta_band.2 0 (1/10) (3/10) 35 100 emptyMD rfl⟩

/-- Counterexample to C10 as stated: with the band [0.25001, 0.3] and a
market delta of exactly 0.25001, the contract passes the (unrounded) band
check but is emitted with `delta = round(0.25001, 4) = 0.25`, which lies
below `min_delta` — so not every output contract carries a delta inside
the band. -/
theorem C10_counterexample :
    get_options 0 30 45 (25001/100000) (3/10) (Except.ok [PyVal.num 150])
        (Except.ok (some [35])) (fun _ => Except.ok (some [some 100]))
        (fun _ _ => Except.ok
          [MDItem.dict ⟨.none, .none, .none, .none, .none, .num (25001/100000)⟩]) =
      .success (some (.fin 150)) [⟨100, 35, 35, .fin (1/4), .fin 0, .fin 0, 0, 0⟩] ∧
    ¬ ((25001/100000 : ℚ) ≤ 1/4) := by
  constructor
  · with_unfolding_all decide
  · norm_num

end CoveredCalls
